import Mathlib

/-!
# Verification of the DastavejSetu extraction job-tracking core

Shallow embedding of the gateway's extraction Job Coordinator and Status
Reconciler (`api-server/src/extraction/extraction.service.ts`, the extraction
controller, and the drizzle job-record queries) together with the three
backing stores: the in-process cache (`jobResultsMap`), the durable job
record store, and the blob store.  External I/O outcomes (blob uploads, the
remote engine, database availability) are supplied by explicit environment
records so that each execution of an operation is a pure function of the
state and the environment.
-/

namespace DastavejSetu

/-- Job status, as in `ExtractionStatusResponse['status']`:
`'pending' | 'processing' | 'completed' | 'failed'`. -/
inductive JStatus where
  | pending
  | processing
  | completed
  | failed
deriving DecidableEq, Repr

/-- One extracted table (`TableData` in `extraction.interface.ts`). -/
structure TableData where
  tableName : String
  headers : List String
  rows : List (List String)
deriving DecidableEq, Repr

/-- The structured extraction output (`ExtractionResult`). -/
structure ExtractionResult where
  tables : List TableData
  summary : String
deriving DecidableEq, Repr

/-- Response of `startExtraction` (`ExtractionResponse`). -/
structure ExtractionResponse where
  success : Bool
  message : String
  job_id : Option String
  file_url : Option String
  data : Option ExtractionResult
deriving DecidableEq, Repr

/-- Response of `getExtractionStatus` (`ExtractionStatusResponse`). -/
structure StatusResponse where
  job_id : String
  status : JStatus
  file_url : Option String
  data : Option ExtractionResult
  error : Option String
deriving DecidableEq, Repr

/-- Response of the `PUT /:jobId` edit endpoint. -/
structure UpdateResponse where
  success : Bool
  message : String
deriving DecidableEq, Repr

/-- An entry of the in-memory `jobResultsMap`.  The TypeScript map's value
type annotates `status` with the two terminal literals; we give it the full
status type so that terminality is proved, not assumed. -/
structure CacheEntry where
  status : JStatus
  fileUrl : String
  fileName : Option String
  data : Option ExtractionResult
  error : Option String
deriving DecidableEq, Repr

/-- A row of the durable `extraction_jobs` table, as selected by the
queries in `extraction-queries.ts` (timestamps omitted). -/
structure DbJob where
  id : String
  userId : String
  fileName : String
  fileUrl : String
  status : String
  result : Option ExtractionResult
  error : Option String
deriving DecidableEq, Repr

/-- A value held by the blob store: either raw (non-JSON) bytes, as for an
uploaded original document, or a stored `ExtractionResult` JSON document. -/
inductive BlobVal where
  | raw
  | result (r : ExtractionResult)
deriving DecidableEq, Repr

/-- Association-list lookup; the head of the list is the latest write. -/
def getA {α : Type} : List (String × α) → String → Option α
  | [], _ => none
  | (k, v) :: rest, k' => if k = k' then some v else getA rest k'

/-- The combined mutable state: the in-process cache, the durable record
store, the blob store, and trace logs of the blob keys read and written
(chronological order), used to express the instrumentation properties. -/
structure St where
  cache : List (String × CacheEntry)
  db : List (String × DbJob)
  blob : List (String × BlobVal)
  blobReads : List String
  blobWrites : List String
deriving DecidableEq, Repr

/-- The empty initial state. -/
def St.empty : St := ⟨[], [], [], [], []⟩

/-- Blob upload (`uploadFile`): record the object and log the written key. -/
def stPutBlob (st : St) (k : String) (v : BlobVal) : St :=
  { st with blob := (k, v) :: st.blob, blobWrites := st.blobWrites ++ [k] }

/-- Write an entry into the in-memory cache (`jobResultsMap.set`). -/
def stSetCache (st : St) (jobId : String) (e : CacheEntry) : St :=
  { st with cache := (jobId, e) :: st.cache }

/-- Error codes distinguished by the catch blocks of the service. -/
inductive ErrCode where
  | ECONNREFUSED
  | ETIMEDOUT
  | ECONNABORTED
deriving DecidableEq, Repr

/-- The HTTP-response part a caught error may carry (`error.response`). -/
structure RespInfo where
  status : Nat
  detail : Option String
deriving DecidableEq, Repr

/-- A caught JavaScript error, with the fields the service inspects. -/
structure ErrInfo where
  message : String
  response : Option RespInfo
  code : Option ErrCode
deriving DecidableEq, Repr

/-- The HTTP errors the service surfaces (`BadRequestException` /
`InternalServerErrorException`). -/
inductive ApiError where
  | badRequest (msg : String)
  | internalServerError (msg : String)
deriving DecidableEq, Repr

/-- Hexadecimal digit (uppercase), for percent-encoding. -/
def hexDigitChar (n : Nat) : Char :=
  if n < 10 then Char.ofNat (48 + n) else Char.ofNat (55 + n)

/-- UTF-8 encoding of a unicode scalar value, as a list of byte values. -/
def utf8Bytes (c : Char) : List Nat :=
  let n := c.toNat
  if n < 0x80 then [n]
  else if n < 0x800 then [0xC0 + n / 64, 0x80 + n % 64]
  else if n < 0x10000 then [0xE0 + n / 4096, 0x80 + (n / 64) % 64, 0x80 + n % 64]
  else [0xF0 + n / 262144, 0x80 + (n / 4096) % 64, 0x80 + (n / 64) % 64, 0x80 + n % 64]

/-- Characters left unescaped by JavaScript's `encodeURIComponent`:
`A-Z a-z 0-9 - _ . ! ~ * ' ( )`. -/
def isURIUnreserved (c : Char) : Bool :=
  c.isAlphanum ||
    c = '-' || c = '_' || c = '.' || c = '!' || c = '~' || c = '*' ||
    c.toNat = 39 || c = '(' || c = ')'

/-- Percent-encode one character as its UTF-8 bytes. -/
def percentEncodeChar (c : Char) : String :=
  (utf8Bytes c).foldl
    (fun acc b =>
      acc ++ "%" ++ String.singleton (hexDigitChar (b / 16)) ++
        String.singleton (hexDigitChar (b % 16)))
    ""

/-- JavaScript's `encodeURIComponent`, modelled over unicode scalars. -/
def encodeURIComponent (s : String) : String :=
  s.data.foldl
    (fun acc c =>
      acc ++ (if isURIUnreserved c then String.singleton c else percentEncodeChar c))
    ""

/-- Outcomes of the external calls made by one run of `startExtraction`:
the original upload (returning the blob URL on success), the engine call,
and the result-JSON upload. -/
structure StartEnv where
  uploadOriginal : Except ErrInfo String
  engine : Except ErrInfo ExtractionResult
  uploadResult : Except ErrInfo Unit
deriving Repr

/-- The error classification in `startExtraction`'s catch block:
`error.response` → `BadRequestException(detail || 'Extraction failed')`;
`ECONNREFUSED` / `ETIMEDOUT` / `ECONNABORTED` → specific 500s; otherwise the
generic `'Document extraction failed'` 500. -/
def classifyStartErr (e : ErrInfo) : ApiError :=
  match e.response with
  | some r => .badRequest (r.detail.getD "Extraction failed")
  | none =>
    match e.code with
    | some .ECONNREFUSED =>
        .internalServerError
          "Python extraction service is not running. Please start the API service on port 8000."
    | some .ETIMEDOUT =>
        .internalServerError "Request to Python service timed out. Please try again."
    | some .ECONNABORTED =>
        .internalServerError "Request to Python service timed out. Please try again."
    | none => .internalServerError "Document extraction failed"

/-- Catch block of `startExtraction`: store
`{status: 'failed', fileUrl: '', fileName, error: error.message}` in the
in-memory map, then rethrow a classified HTTP error. -/
def startCatch (st : St) (jobId fileName : String) (e : ErrInfo) :
    Except ApiError ExtractionResponse × St :=
  (.error (classifyStartErr e),
   stSetCache st jobId ⟨.failed, "", some fileName, none, some e.message⟩)

/-- Embedding of `ExtractionService.startExtraction`.  The fresh `jobId` is passed in
(the source derives it from the clock and a random suffix before any I/O);
`fileBuffer`, `mimeType`, `targetLanguage`, `preserveNames` only flow into
the external calls, whose outcomes `env` already fixes. -/
def startExtraction (env : StartEnv) (st : St) (jobId fileName : String) :
    Except ApiError ExtractionResponse × St :=
  match env.uploadOriginal with
  | .error e => startCatch st jobId fileName e
  | .ok originalUrl =>
    let st1 := stPutBlob st ("originals/" ++ jobId ++ "/" ++ encodeURIComponent fileName) .raw
    match env.engine with
    | .error e => startCatch st1 jobId fileName e
    | .ok extractionResult =>
      match env.uploadResult with
      | .error e => startCatch st1 jobId fileName e
      | .ok _ =>
        let st2 := stPutBlob st1
          ("output/" ++ jobId ++ "/" ++ encodeURIComponent fileName ++ ".json")
          (.result extractionResult)
        let st3 := stSetCache st2 jobId
          ⟨.completed, originalUrl, some fileName, some extractionResult, none⟩
        (.ok ⟨true, "Extraction completed", some jobId, some originalUrl,
              some extractionResult⟩,
         st3)

/-- Environment of one `getExtractionStatus` run: whether the durable
lookup throws (its failure is only warn-logged), and the outcome of the
final legacy fallback call to the remote engine's status endpoint. -/
structure StatusEnv where
  dbThrows : Bool
  engineStatus : Except ErrInfo StatusResponse
deriving Repr

/-- The error classification in `getExtractionStatus`'s catch block. -/
def classifyStatusErr (e : ErrInfo) : ApiError :=
  if (match e.response with | some r => decide (r.status = 404) | none => false) then
    .badRequest "Job not found"
  else if e.code = some .ECONNREFUSED then
    .internalServerError "Python extraction service is not running."
  else
    .internalServerError "Failed to get extraction status"

/-- The key loop of the Status Reconciler: probe the blob store under the
candidate keys in order; each `fileExists` call logs one read, a hit logs a
second read for `getFileBuffer`.  An object that exists but does not parse
as result JSON (raw bytes) is skipped, as the source catches the parse
error and continues.  Returns the first parsed hit and the read log. -/
def probeBlob (blob : List (String × BlobVal)) :
    List String → Option ExtractionResult × List String
  | [] => (none, [])
  | k :: rest =>
    match getA blob k with
    | none =>
      let (r, logs) := probeBlob blob rest
      (r, k :: logs)
    | some .raw =>
      let (r, logs) := probeBlob blob rest
      (r, k :: k :: logs)
    | some (.result res) => (some res, [k, k])

/-- The legacy fallback of the Status Reconciler: `GET .../status/{jobId}`
on the remote engine, with the surrounding catch block. -/
def engineFallback (env : StatusEnv) (st : St) :
    Except ApiError StatusResponse × St :=
  match env.engineStatus with
  | .ok resp => (.ok resp, st)
  | .error e => (.error (classifyStatusErr e), st)

/-- Embedding of `ExtractionService.getExtractionStatus`: in-memory cache, then durable
record (for the file name), then the dual-key blob probe (encoded key
first, legacy unencoded key second), then the remote engine. -/
def getExtractionStatus (env : StatusEnv) (st : St) (jobId : String) :
    Except ApiError StatusResponse × St :=
  match getA st.cache jobId with
  | some c =>
    (.ok ⟨jobId, c.status, some c.fileUrl, c.data, c.error⟩, st)
  | none =>
    let fileName? : Option String :=
      if env.dbThrows then none
      else match getA st.db jobId with
        | some j => some j.fileName
        | none => none
    match fileName? with
    | some fn =>
      let keysToTry :=
        ["output/" ++ jobId ++ "/" ++ encodeURIComponent fn ++ ".json",
         "output/" ++ jobId ++ "/" ++ fn ++ ".json"]
      let probed := probeBlob st.blob keysToTry
      let stR := { st with blobReads := st.blobReads ++ probed.2 }
      match probed.1 with
      | some data =>
        let st' := stSetCache stR jobId ⟨.completed, "", some fn, some data, none⟩
        (.ok ⟨jobId, .completed, some "", some data, none⟩, st')
      | none => engineFallback env stR
    | none => engineFallback env st

/-- Durable insert (`createExtractionJob`): a fresh row with
`status: 'pending'` and empty result/error columns. -/
def dbInsert (db : List (String × DbJob)) (jobId userId fileName fileUrl : String) :
    List (String × DbJob) :=
  (jobId, ⟨jobId, userId, fileName, fileUrl, "pending", none, none⟩) :: db

/-- Durable update (`updateExtractionJob`): set `status`, and `result` /
`error` only when provided, on the row with the given id. -/
def dbUpdate (db : List (String × DbJob)) (jobId status : String)
    (result? : Option ExtractionResult) (error? : Option String) :
    List (String × DbJob) :=
  db.map fun p =>
    if p.1 = jobId then
      (p.1, { p.2 with
                status := status,
                result := match result? with | some r => some r | none => p.2.result,
                error := match error? with | some e => some e | none => p.2.error })
    else p

/-- Embedding of `ExtractionController.extractDocument`: run `startExtraction`, then
attempt the durable job-record insert; `createThrows` makes that insert
fail, which is swallowed (warn-logged) rather than surfaced. -/
def extractDocument (env : StartEnv) (createThrows : Bool) (st : St)
    (jobId fileName userId : String) :
    Except ApiError ExtractionResponse × St :=
  match startExtraction env st jobId fileName with
  | (.error e, st') => (.error e, st')
  | (.ok resp, st') =>
    match resp.job_id with
    | some jid =>
      if createThrows then (.ok resp, st')
      else (.ok resp,
            { st' with db := dbInsert st'.db jid userId fileName (resp.file_url.getD "") })
    | none => (.ok resp, st')

/-- Environment of one `updateExtractionResult` run: each durable / blob
operation may throw with a given message (`none` = success). -/
structure UpdEnv where
  lookupThrows : Option String
  createThrows : Option String
  lookup2Throws : Option String
  uploadThrows : Option String
  updateThrows : Option String
deriving Repr

/-- Catch block of `updateExtractionResult`: every error is rewrapped as
`BadRequestException('Failed to update extraction result: ' + message)`. -/
def updCatch (st : St) (msg : String) : Except ApiError UpdateResponse × St :=
  (.error (.badRequest ("Failed to update extraction result: " ++ msg)), st)

/-- Embedding of `ExtractionController.updateExtractionResult` (`PUT /:jobId`): validate
the payload, find the durable record (reconstructing one from the cache
entry when absent, with userId and fileName hard-coded to `'unknown'`),
write the new result JSON to the blob store, update the durable record,
and refresh the in-memory cache — any failure aborts and is surfaced. -/
def updateExtractionResult (env : UpdEnv) (st : St) (jobId : String)
    (data? : Option ExtractionResult) :
    Except ApiError UpdateResponse × St :=
  match data? with
  | none => updCatch st "No data provided"
  | some data =>
    match env.lookupThrows with
    | some m => updCatch st m
    | none =>
      let found :=
        match getA st.db jobId with
        | some j => (some j, st, (none : Option String))
        | none =>
          match getA st.cache jobId with
          | some c =>
            match env.createThrows with
            | some m => (none, st, some m)
            | none =>
              let stN := { st with db := dbInsert st.db jobId "unknown" "unknown" c.fileUrl }
              match env.lookup2Throws with
              | some m => (none, stN, some m)
              | none => (getA stN.db jobId, stN, none)
          | none => (none, st, none)
      match found with
      | (_, st1, some m) => updCatch st1 m
      | (none, st1, none) => updCatch st1 "Job not found"
      | (some job, st1, none) =>
        match env.uploadThrows with
        | some m => updCatch st1 m
        | none =>
          let st2 := stPutBlob st1
            ("output/" ++ jobId ++ "/" ++ encodeURIComponent job.fileName ++ ".json")
            (.result data)
          match env.updateThrows with
          | some m => updCatch st2 m
          | none =>
            let st3 := { st2 with db := dbUpdate st2.db jobId "completed" (some data) none }
            let st4 := stSetCache st3 jobId
              ⟨.completed, job.fileUrl, some job.fileName, some data, none⟩
            (.ok ⟨true, "Extraction result updated successfully"⟩, st4)

/-- Fixture: a small extraction result, as in the end-to-end scenario of the
specification. -/
def sampleResult : ExtractionResult :=
  ⟨[⟨"Page 1 Table 1", ["Name", "Age"], [["Ann", "30"]]⟩], "one table"⟩

/-- Fixture: an edited extraction result (one changed cell). -/
def editedResult : ExtractionResult :=
  ⟨[⟨"Page 1 Table 1", ["Name", "Age"], [["Ann", "31"]]⟩], "edited"⟩

/-- Fixture: an environment in which all external calls of
`startExtraction` succeed. -/
def envAllOk : StartEnv := ⟨.ok "https://blob/orig", .ok sampleResult, .ok ()⟩

/-- Fixture: the error a timed-out engine call raises. -/
def errEngineTimeout : ErrInfo :=
  ⟨"timeout of 600000ms exceeded", none, some .ECONNABORTED⟩

/-- Fixture: an environment in which the engine call times out. -/
def envEngineTimeout : StartEnv :=
  ⟨.ok "https://blob/orig", .error errEngineTimeout, .ok ()⟩

/-- Fixture: a status environment whose remote-engine fallback reports 404. -/
def senv404 : StatusEnv :=
  ⟨false, .error ⟨"Request failed with status code 404", some ⟨404, none⟩, none⟩⟩

/-- Fixture: a status environment with the durable store and the engine both
down. -/
def senvDown : StatusEnv :=
  ⟨true, .error ⟨"connect ECONNREFUSED 127.0.0.1:8000", none, some .ECONNREFUSED⟩⟩

/-- Fixture: an edit environment in which every store operation succeeds. -/
def uenvAllOk : UpdEnv := ⟨none, none, none, none, none⟩

/-- Fixture: an edit environment in which only the durable update fails. -/
def uenvUpdateFail : UpdEnv := ⟨none, none, none, none, some "database unavailable"⟩

/-- Fixture: the pre-edit cache entry of job_5. -/
def preEditEntry : CacheEntry :=
  ⟨.completed, "https://blob/orig", some "a b.pdf", some sampleResult, none⟩

/-- Fixture: the durable record of job_5. -/
def jobRec5 : DbJob :=
  ⟨"job_5", "user", "a b.pdf", "https://blob/orig", "completed", some sampleResult, none⟩

/-- Fixture: a fully persisted completed job, about to be edited. -/
def stEdit : St :=
  ⟨[("job_5", preEditEntry)], [("job_5", jobRec5)],
   [("output/job_5/a%20b.pdf.json", .result sampleResult)], [], []⟩

/-- Fixture: the durable record of the legacy job_3. -/
def jobRec3 : DbJob :=
  ⟨"job_3", "user", "a b.pdf", "https://blob/orig", "completed", none, none⟩

/-- Fixture: a legacy job whose result blob sits only under the unencoded
key and which is absent from the cache. -/
def stLegacy : St :=
  ⟨[], [("job_3", jobRec3)], [("output/job_3/a b.pdf.json", .result sampleResult)], [], []⟩

/-- Fixture: the cache entry of job_6, which has no durable record. -/
def cacheOnlyEntry : CacheEntry :=
  ⟨.completed, "urlX", some "doc.pdf", some sampleResult, none⟩

/-- Fixture: a job known only to the in-memory cache. -/
def stCacheOnly : St := ⟨[("job_6", cacheOnlyEntry)], [], [], [], []⟩

/-- Fixture: a state whose cache is already warm for the completed job_8. -/
def stWarm8 : St :=
  ⟨[("job_8", ⟨.completed, "u8", some "f.pdf", some sampleResult, none⟩)], [], [], [], []⟩

/-- Fixture: the status response served from the warm cache of `stWarm8`. -/
def respWarm8 : StatusResponse := ⟨"job_8", .completed, some "u8", some sampleResult, none⟩

/-- Invariant on one cache entry: terminal status; result data present on
completion; an error message and no data on failure. -/
def entryOK (e : CacheEntry) : Prop :=
  (e.status = .completed ∨ e.status = .failed) ∧
  (e.status = .completed → e.data.isSome = true) ∧
  (e.status = .failed → e.error.isSome = true ∧ e.data = none)

/-- Invariant on a state: every entry of the in-memory cache satisfies
`entryOK`. -/
def cacheOK (st : St) : Prop := ∀ k e, getA st.cache k = some e → entryOK e

lemma cacheOK_setCache {st : St} {k : String} {e : CacheEntry}
    (h : cacheOK st) (he : entryOK e) : cacheOK (stSetCache st k e) := by
  intro k' e' h'
  simp only [stSetCache, getA] at h'
  split at h'
  · cases h'; exact he
  · exact h k' e' h'

/-- C1, counterexample: when the original upload fails, `startExtraction`
propagates an infrastructure error, but the generic catch block has already
written a failed entry for the generated job id into the in-memory cache, so
a subsequent `getStatus` does find a job (reporting it failed) — refuting
the claim that no state for the job id is observable afterwards. -/
theorem c1_counterexample :
    (startExtraction ⟨.error ⟨"S3 upload failed", none, none⟩, .ok sampleResult, .ok ()⟩
        St.empty "job_1" "doc.pdf").1 =
      .error (.internalServerError "Document extraction failed") ∧
    (getExtractionStatus senv404
        (startExtraction ⟨.error ⟨"S3 upload failed", none, none⟩, .ok sampleResult, .ok ()⟩
          St.empty "job_1" "doc.pdf").2 "job_1").1 =
      .ok ⟨"job_1", .failed, some "", none, some "S3 upload failed"⟩ :=
  ⟨rfl, rfl⟩

/-- C1, amended: if persisting the original document fails, the operation
aborts — nothing is written to the blob store or the durable store and an
infrastructure error is propagated to the caller — but a failed-status
entry for the generated job id is recorded in the in-memory cache, so a
subsequent `getStatus` reports the job as failed with the storage error
message rather than finding no job. -/
theorem c1_upload_failure_aborts_but_records_failed_entry
    (env : StartEnv) (senv : StatusEnv) (st : St) (jobId fileName : String) (e : ErrInfo)
    (h1 : env.uploadOriginal = .error e)
    (hr : e.response = none) (hc : e.code = none) :
    (startExtraction env st jobId fileName).1 =
      .error (.internalServerError "Document extraction failed") ∧
    (startExtraction env st jobId fileName).2.blob = st.blob ∧
    (startExtraction env st jobId fileName).2.blobWrites = st.blobWrites ∧
    (startExtraction env st jobId fileName).2.db = st.db ∧
    (startExtraction env st jobId fileName).2.cache =
      (jobId, ⟨.failed, "", some fileName, none, some e.message⟩) :: st.cache ∧
    (getExtractionStatus senv (startExtraction env st jobId fileName).2 jobId).1 =
      .ok ⟨jobId, .failed, some "", none, some e.message⟩ := by
  simp [startExtraction, h1, startCatch, classifyStartErr, hr, hc,
        getExtractionStatus, stSetCache, getA]

/-- C1, witness for the amended theorem at a concrete input. -/
theorem c1_upload_failure_witness :
    (⟨"S3 upload failed", none, none⟩ : ErrInfo).response = none ∧
    (getExtractionStatus senv404
        (startExtraction ⟨.error ⟨"S3 upload failed", none, none⟩, .ok sampleResult, .ok ()⟩
          St.empty "job_1" "doc.pdf").2 "job_1").1 =
      .ok ⟨"job_1", .failed, some "", none, some "S3 upload failed"⟩ :=
  ⟨rfl,
   (c1_upload_failure_aborts_but_records_failed_entry
      ⟨.error ⟨"S3 upload failed", none, none⟩, .ok sampleResult, .ok ()⟩ senv404 St.empty
      "job_1" "doc.pdf" ⟨"S3 upload failed", none, none⟩ rfl rfl rfl).2.2.2.2.2⟩

/-- C2: for every successful `startExtraction`, a `getStatus` issued
immediately afterwards (under any status environment, with no intervening
writes) returns status completed with a result deep-equal to the result
`startExtraction` returned to the caller. -/
theorem c2_getStatus_after_start
    (env : StartEnv) (senv : StatusEnv) (st : St) (jobId fileName url : String)
    (r : ExtractionResult)
    (h1 : env.uploadOriginal = .ok url) (h2 : env.engine = .ok r)
    (h3 : env.uploadResult = .ok ()) :
    (startExtraction env st jobId fileName).1 =
      .ok ⟨true, "Extraction completed", some jobId, some url, some r⟩ ∧
    (getExtractionStatus senv (startExtraction env st jobId fileName).2 jobId).1 =
      .ok ⟨jobId, .completed, some url, some r, none⟩ := by
  simp [startExtraction, h1, h2, h3, getExtractionStatus, stSetCache, stPutBlob, getA]

/-- C2, witness at a concrete input. -/
theorem c2_getStatus_after_start_witness :
    envAllOk.uploadOriginal = .ok "https://blob/orig" ∧
    (getExtractionStatus senv404 (startExtraction envAllOk St.empty "job_1" "a b.pdf").2
        "job_1").1 =
      .ok ⟨"job_1", .completed, some "https://blob/orig", some sampleResult, none⟩ :=
  ⟨rfl,
   (c2_getStatus_after_start envAllOk senv404 St.empty "job_1" "a b.pdf"
      "https://blob/orig" sampleResult rfl rfl rfl).2⟩

/-- C3: on a cache miss the Status Reconciler falls back in priority order:
durable record (for the file name), then the blob probe under the two
candidate keys — the URL-encoded key first, the legacy unencoded key
second, first hit wins — then the remote engine status endpoint.  A blob
hit is returned as completed with the parsed result and written into the
cache; a result stored only under the legacy key is found when the encoded
key is absent; when no durable record exists the blob probe is skipped
entirely and the lookup falls through to the remote engine. -/
theorem c3_reconciler_priority
    (st : St) (env : StatusEnv) (jobId : String) (j : DbJob)
    (hmiss : getA st.cache jobId = none)
    (hdbok : env.dbThrows = false) :
    (getA st.db jobId = some j →
      ((∀ r, getA st.blob ("output/" ++ jobId ++ "/" ++ encodeURIComponent j.fileName ++ ".json") =
            some (.result r) →
          (getExtractionStatus env st jobId).1 =
            .ok ⟨jobId, .completed, some "", some r, none⟩ ∧
          getA (getExtractionStatus env st jobId).2.cache jobId =
            some ⟨.completed, "", some j.fileName, some r, none⟩) ∧
       (∀ r, getA st.blob ("output/" ++ jobId ++ "/" ++ encodeURIComponent j.fileName ++ ".json") = none →
          getA st.blob ("output/" ++ jobId ++ "/" ++ j.fileName ++ ".json") = some (.result r) →
          (getExtractionStatus env st jobId).1 =
            .ok ⟨jobId, .completed, some "", some r, none⟩ ∧
          getA (getExtractionStatus env st jobId).2.cache jobId =
            some ⟨.completed, "", some j.fileName, some r, none⟩) ∧
       (getA st.blob ("output/" ++ jobId ++ "/" ++ encodeURIComponent j.fileName ++ ".json") = none →
        getA st.blob ("output/" ++ jobId ++ "/" ++ j.fileName ++ ".json") = none →
          (getExtractionStatus env st jobId).1 = (engineFallback env st).1))) ∧
    (getA st.db jobId = none →
      (getExtractionStatus env st jobId).2 = st ∧
      (getExtractionStatus env st jobId).1 = (engineFallback env st).1) := by
  constructor
  · intro hj
    refine ⟨?_, ?_, ?_⟩
    · intro r hE
      simp [getExtractionStatus, hmiss, hdbok, hj, probeBlob, hE, stSetCache, getA]
    · intro r hE hL
      simp [getExtractionStatus, hmiss, hdbok, hj, probeBlob, hE, hL, stSetCache, getA]
    · intro hE hL
      cases hes : env.engineStatus <;>
        simp [getExtractionStatus, hmiss, hdbok, hj, probeBlob, hE, hL,
              engineFallback, hes]
  · intro hj
    cases hes : env.engineStatus <;>
      simp [getExtractionStatus, hmiss, hdbok, hj, engineFallback, hes]

/-- C3, witness: the legacy-key scenario at a concrete input. -/
theorem c3_reconciler_priority_witness :
    getA stLegacy.blob
        ("output/" ++ "job_3" ++ "/" ++ encodeURIComponent jobRec3.fileName ++ ".json") = none ∧
    (getExtractionStatus senv404 stLegacy "job_3").1 =
      .ok ⟨"job_3", .completed, some "", some sampleResult, none⟩ :=
  ⟨by decide,
   (((c3_reconciler_priority stLegacy senv404 "job_3" jobRec3 rfl rfl).1 rfl).2.1
      sampleResult (by decide) (by decide)).1⟩

/-- C4: when the engine call fails, `startExtraction` records a failed
entry with the error message in the in-memory cache and returns a typed
HTTP error; a subsequent `getStatus` returns status failed with that
non-empty error; and the only blob written for the job is the original
document — no result blob is ever stored. -/
theorem c4_engine_failure
    (env : StartEnv) (senv : StatusEnv) (st : St) (jobId fileName url : String)
    (e : ErrInfo)
    (h1 : env.uploadOriginal = .ok url) (h2 : env.engine = .error e)
    (hm : e.message ≠ "") :
    (startExtraction env st jobId fileName).1 = .error (classifyStartErr e) ∧
    getA (startExtraction env st jobId fileName).2.cache jobId =
      some ⟨.failed, "", some fileName, none, some e.message⟩ ∧
    (getExtractionStatus senv (startExtraction env st jobId fileName).2 jobId).1 =
      .ok ⟨jobId, .failed, some "", none, some e.message⟩ ∧
    e.message ≠ "" ∧
    (startExtraction env st jobId fileName).2.blobWrites =
      st.blobWrites ++ ["originals/" ++ jobId ++ "/" ++ encodeURIComponent fileName] ∧
    (∀ k r', getA (startExtraction env st jobId fileName).2.blob k = some (.result r') →
      getA st.blob k = some (.result r')) := by
  refine ⟨?_, ?_, ?_, hm, ?_, ?_⟩ <;>
    simp [startExtraction, h1, h2, startCatch, getExtractionStatus,
          stSetCache, stPutBlob, getA]
  intro k r' h
  split at h
  · exact absurd h (by simp)
  · exact h

/-- C4, witness: a timed-out engine call at a concrete input. -/
theorem c4_engine_failure_witness :
    errEngineTimeout.message ≠ "" ∧
    (getExtractionStatus senv404
        (startExtraction envEngineTimeout St.empty "job_4" "a b.pdf").2 "job_4").1 =
      .ok ⟨"job_4", .failed, some "", none, some "timeout of 600000ms exceeded"⟩ :=
  ⟨by decide,
   (c4_engine_failure envEngineTimeout senv404 St.empty "job_4" "a b.pdf"
      "https://blob/orig" errEngineTimeout rfl rfl (by decide)).2.2.1⟩

/-- C5: `updateResult` is strict.  If the blob write succeeds but the
durable update fails, the operation reports a failure and the in-memory
cache still holds the pre-edit entry, so a subsequent `getStatus` serves
the pre-edit result; if the blob write itself fails nothing is changed at
all; and when neither the durable record nor the cache holds anything for
the job id it fails with the job-not-found error. -/
theorem c5_updateResult_strict
    (env : UpdEnv) (st : St) (jobId : String) (d : ExtractionResult)
    (hl : env.lookupThrows = none) :
    (∀ m j, env.uploadThrows = none → env.updateThrows = some m →
       getA st.db jobId = some j →
       (updateExtractionResult env st jobId (some d)).1 =
         .error (.badRequest ("Failed to update extraction result: " ++ m)) ∧
       (updateExtractionResult env st jobId (some d)).2.cache = st.cache ∧
       (updateExtractionResult env st jobId (some d)).2.blobWrites =
         st.blobWrites ++ ["output/" ++ jobId ++ "/" ++ encodeURIComponent j.fileName ++ ".json"] ∧
       (∀ senv c, getA st.cache jobId = some c →
          (getExtractionStatus senv (updateExtractionResult env st jobId (some d)).2 jobId).1 =
            .ok ⟨jobId, c.status, some c.fileUrl, c.data, c.error⟩)) ∧
    (∀ m j, env.uploadThrows = some m → getA st.db jobId = some j →
       (updateExtractionResult env st jobId (some d)).1 =
         .error (.badRequest ("Failed to update extraction result: " ++ m)) ∧
       (updateExtractionResult env st jobId (some d)).2 = st) ∧
    (getA st.db jobId = none → getA st.cache jobId = none →
       (updateExtractionResult env st jobId (some d)).1 =
         .error (.badRequest "Failed to update extraction result: Job not found") ∧
       (updateExtractionResult env st jobId (some d)).2 = st) := by
  refine ⟨?_, ?_, ?_⟩
  · intro m j hu hupd hj
    refine ⟨?_, ?_, ?_, ?_⟩ <;>
      simp [updateExtractionResult, hl, hj, hu, hupd, stPutBlob, updCatch]
    intro senv c hc
    simp [getExtractionStatus, updateExtractionResult, hl, hj, hu, hupd,
          stPutBlob, updCatch, hc]
  · intro m j hu hj
    simp [updateExtractionResult, hl, hj, hu, updCatch]
  · intro hdb hc
    simp [updateExtractionResult, hl, hdb, hc, updCatch]

/-- C5, witness: a failing durable update at a concrete input. -/
theorem c5_updateResult_strict_witness :
    uenvUpdateFail.updateThrows = some "database unavailable" ∧
    (updateExtractionResult uenvUpdateFail stEdit "job_5" (some editedResult)).1 =
      .error (.badRequest ("Failed to update extraction result: " ++ "database unavailable")) ∧
    (updateExtractionResult uenvUpdateFail stEdit "job_5" (some editedResult)).2.cache =
      stEdit.cache := by
  have h := (c5_updateResult_strict uenvUpdateFail stEdit "job_5" editedResult rfl).1
    "database unavailable" jobRec5 rfl rfl rfl
  exact ⟨rfl, h.1, h.2.1⟩

/-- C6, counterexample: the cache entry for job_6 carries the file name
doc.pdf, yet the durable record reconstructed by `updateResult` carries the
literal file name unknown (and userId unknown), and the result blob is
keyed under unknown as well — refuting the claim that the file name is
recovered from the cache entry. -/
theorem c6_counterexample :
    getA stCacheOnly.cache "job_6" = some cacheOnlyEntry ∧
    cacheOnlyEntry.fileName = some "doc.pdf" ∧
    getA (updateExtractionResult uenvAllOk stCacheOnly "job_6" (some editedResult)).2.db
        "job_6" =
      some ⟨"job_6", "unknown", "unknown", "urlX", "completed", some editedResult, none⟩ ∧
    (updateExtractionResult uenvAllOk stCacheOnly "job_6" (some editedResult)).2.blobWrites =
      ["output/job_6/unknown.json"] :=
  ⟨rfl, rfl, rfl, rfl⟩

/-- C6, amended: when `updateResult` finds no durable record but the cache
holds an entry, it creates a minimal durable record retroactively,
recovering only `fileUrl` from the cache entry — `fileName` and `userId`
are set to the literal string unknown rather than recovered — and then
proceeds with the edit using that record, so the result blob is keyed
under the encoded unknown name and the refreshed cache entry also carries
the file name unknown. -/
theorem c6_reconstruct_recovers_only_fileUrl
    (env : UpdEnv) (st : St) (jobId : String) (c : CacheEntry) (d : ExtractionResult)
    (hl : env.lookupThrows = none) (hcr : env.createThrows = none)
    (hl2 : env.lookup2Throws = none) (hu : env.uploadThrows = none)
    (hupd : env.updateThrows = none)
    (hdb : getA st.db jobId = none) (hc : getA st.cache jobId = some c) :
    (updateExtractionResult env st jobId (some d)).1 =
      .ok ⟨true, "Extraction result updated successfully"⟩ ∧
    getA (updateExtractionResult env st jobId (some d)).2.db jobId =
      some ⟨jobId, "unknown", "unknown", c.fileUrl, "completed", some d, none⟩ ∧
    getA (updateExtractionResult env st jobId (some d)).2.cache jobId =
      some ⟨.completed, c.fileUrl, some "unknown", some d, none⟩ ∧
    (updateExtractionResult env st jobId (some d)).2.blobWrites =
      st.blobWrites ++ ["output/" ++ jobId ++ "/" ++ encodeURIComponent "unknown" ++ ".json"] := by
  simp [updateExtractionResult, hl, hcr, hl2, hu, hupd, hdb, hc,
        dbInsert, dbUpdate, stPutBlob, stSetCache, getA]

/-- C6, witness for the amended theorem at a concrete input. -/
theorem c6_reconstruct_witness :
    getA stCacheOnly.db "job_6" = none ∧
    getA (updateExtractionResult uenvAllOk stCacheOnly "job_6" (some editedResult)).2.db
        "job_6" =
      some ⟨"job_6", "unknown", "unknown", cacheOnlyEntry.fileUrl, "completed",
            some editedResult, none⟩ :=
  ⟨rfl,
   (c6_reconstruct_recovers_only_fileUrl uenvAllOk stCacheOnly "job_6" cacheOnlyEntry
      editedResult rfl rfl rfl rfl rfl rfl rfl).2.1⟩

/-- C7: after a successful engine call, the durable job-record write in the
controller is best-effort — when it fails, the extraction is still reported
successful to the caller with the same payload as when it succeeds, and the
durable store is simply left unchanged. -/
theorem c7_durable_write_best_effort
    (env : StartEnv) (st : St) (jobId fileName userId url : String) (r : ExtractionResult)
    (h1 : env.uploadOriginal = .ok url) (h2 : env.engine = .ok r)
    (h3 : env.uploadResult = .ok ()) :
    (extractDocument env true st jobId fileName userId).1 =
      (extractDocument env false st jobId fileName userId).1 ∧
    (extractDocument env true st jobId fileName userId).1 =
      .ok ⟨true, "Extraction completed", some jobId, some url, some r⟩ ∧
    (extractDocument env true st jobId fileName userId).2.db = st.db := by
  simp [extractDocument, startExtraction, h1, h2, h3, stSetCache, stPutBlob]

/-- C7, witness at a concrete input. -/
theorem c7_durable_write_best_effort_witness :
    envAllOk.engine = .ok sampleResult ∧
    (extractDocument envAllOk true St.empty "job_7" "a b.pdf" "user-1").1 =
      .ok ⟨true, "Extraction completed", some "job_7", some "https://blob/orig",
           some sampleResult⟩ :=
  ⟨rfl,
   (c7_durable_write_best_effort envAllOk St.empty "job_7" "a b.pdf" "user-1"
      "https://blob/orig" sampleResult rfl rfl rfl).2.1⟩

/-- C8: `getStatus` is idempotent for a completed job — a second call under
the same environment returns the identical result, and whenever the first
call left the in-process cache warm for the job id, the second call (under
any environment) also returns the identical result and performs no blob
store query. -/
theorem c8_idempotent
    (st : St) (env env' : StatusEnv) (jobId : String) (r : StatusResponse)
    (h1 : (getExtractionStatus env st jobId).1 = .ok r)
    (hc : r.status = .completed) :
    (getExtractionStatus env (getExtractionStatus env st jobId).2 jobId).1 = .ok r ∧
    ((getA (getExtractionStatus env st jobId).2.cache jobId).isSome = true →
       (getExtractionStatus env' (getExtractionStatus env st jobId).2 jobId).1 = .ok r ∧
       (getExtractionStatus env' (getExtractionStatus env st jobId).2 jobId).2.blobReads =
         (getExtractionStatus env st jobId).2.blobReads) := by
  cases hcache : getA st.cache jobId with
  | some c =>
    simp [getExtractionStatus, hcache] at h1 ⊢
    exact h1
  | none =>
    by_cases hdb : env.dbThrows
    · cases hes : env.engineStatus with
      | error e =>
        simp [getExtractionStatus, hcache, hdb, engineFallback, hes] at h1
      | ok resp =>
        simp [getExtractionStatus, hcache, hdb, engineFallback, hes] at h1 ⊢
        exact h1
    · cases hj : getA st.db jobId with
      | none =>
        cases hes : env.engineStatus with
        | error e =>
          simp [getExtractionStatus, hcache, hdb, hj, engineFallback, hes] at h1
        | ok resp =>
          simp [getExtractionStatus, hcache, hdb, hj, engineFallback, hes] at h1 ⊢
          exact h1
      | some j =>
        cases hp : (probeBlob st.blob
            ["output/" ++ jobId ++ "/" ++ encodeURIComponent j.fileName ++ ".json",
             "output/" ++ jobId ++ "/" ++ j.fileName ++ ".json"]).1 with
        | some data =>
          simp [getExtractionStatus, hcache, hdb, hj, hp, stSetCache, getA] at h1 ⊢
          exact h1
        | none =>
          cases hes : env.engineStatus with
          | error e =>
            simp [getExtractionStatus, hcache, hdb, hj, hp, engineFallback, hes] at h1
          | ok resp =>
            simp [getExtractionStatus, hcache, hdb, hj, hp, engineFallback, hes] at h1 ⊢
            exact h1

/-- C8, witness: a warm cache at a concrete input; the second call repeats
the answer under a different, entirely failing environment. -/
theorem c8_idempotent_witness :
    (getExtractionStatus senv404 stWarm8 "job_8").1 = .ok respWarm8 ∧
    (getExtractionStatus senvDown (getExtractionStatus senv404 stWarm8 "job_8").2
        "job_8").1 = .ok respWarm8 ∧
    (getExtractionStatus senvDown (getExtractionStatus senv404 stWarm8 "job_8").2
        "job_8").2.blobReads = (getExtractionStatus senv404 stWarm8 "job_8").2.blobReads := by
  have h := c8_idempotent stWarm8 senv404 senvDown "job_8" respWarm8 rfl rfl
  exact ⟨rfl, (h.2 rfl).1, (h.2 rfl).2⟩

/-- C9: the blob keys used by the core are exactly
originals/jobId/urlEncodedFileName for the original document,
output/jobId/urlEncodedFileName.json for the result written by
`startExtraction` and by `updateResult`, and the unencoded
output/jobId/fileName.json as the legacy probe key read by the Status
Reconciler (probed after the encoded key). -/
theorem c9_blob_key_conventions
    (env : StartEnv) (senv : StatusEnv) (uenv : UpdEnv) (st su sg : St)
    (jobId fileName url : String) (r d : ExtractionResult) (j jg : DbJob) :
    ((env.uploadOriginal = .ok url → env.engine = .ok r → env.uploadResult = .ok () →
       (startExtraction env st jobId fileName).2.blobWrites =
         st.blobWrites ++
           ["originals/" ++ jobId ++ "/" ++ encodeURIComponent fileName,
            "output/" ++ jobId ++ "/" ++ encodeURIComponent fileName ++ ".json"])) ∧
    ((uenv.lookupThrows = none → uenv.uploadThrows = none → uenv.updateThrows = none →
       getA su.db jobId = some j →
       (updateExtractionResult uenv su jobId (some d)).2.blobWrites =
         su.blobWrites ++
           ["output/" ++ jobId ++ "/" ++ encodeURIComponent j.fileName ++ ".json"])) ∧
    ((getA sg.cache jobId = none → senv.dbThrows = false → getA sg.db jobId = some jg →
       getA sg.blob ("output/" ++ jobId ++ "/" ++ encodeURIComponent jg.fileName ++ ".json") = none →
       getA sg.blob ("output/" ++ jobId ++ "/" ++ jg.fileName ++ ".json") = none →
       (getExtractionStatus senv sg jobId).2.blobReads =
         sg.blobReads ++
           ["output/" ++ jobId ++ "/" ++ encodeURIComponent jg.fileName ++ ".json",
            "output/" ++ jobId ++ "/" ++ jg.fileName ++ ".json"])) := by
  refine ⟨?_, ?_, ?_⟩
  · intro h1 h2 h3
    simp [startExtraction, h1, h2, h3, stPutBlob, stSetCache]
  · intro hl hu hupd hj
    simp [updateExtractionResult, hl, hu, hupd, hj, stPutBlob, stSetCache]
  · intro hmiss hdb hj hE hL
    cases hes : senv.engineStatus <;>
      simp [getExtractionStatus, hmiss, hdb, hj, probeBlob, hE, hL,
            engineFallback, hes]

/-- C9, witness: the keys written by a successful extraction of a b.pdf. -/
theorem c9_blob_key_conventions_witness :
    envAllOk.uploadResult = .ok () ∧
    (startExtraction envAllOk St.empty "job_1" "a b.pdf").2.blobWrites =
      St.empty.blobWrites ++
        ["originals/" ++ "job_1" ++ "/" ++ encodeURIComponent "a b.pdf",
         "output/" ++ "job_1" ++ "/" ++ encodeURIComponent "a b.pdf" ++ ".json"] :=
  ⟨rfl,
   (c9_blob_key_conventions envAllOk senv404 uenvAllOk St.empty stEdit stLegacy
      "job_1" "a b.pdf" "https://blob/orig" sampleResult editedResult jobRec5
      jobRec3).1 rfl rfl rfl⟩

/-- C10: every entry the four cache-writing paths store carries a terminal
status — completed entries always hold result data, failed entries always
hold an error message and no data — so all three operations preserve the
cache invariant, and a cache hit in `getStatus` never serves a pending or
processing status. -/
theorem c10_cache_terminal
    (st : St) (env : StartEnv) (senv : StatusEnv) (uenv : UpdEnv)
    (jobId fileName : String) (d? : Option ExtractionResult)
    (hok : cacheOK st) :
    cacheOK (startExtraction env st jobId fileName).2 ∧
    cacheOK (getExtractionStatus senv st jobId).2 ∧
    cacheOK (updateExtractionResult uenv st jobId d?).2 ∧
    (∀ c resp, getA st.cache jobId = some c →
       (getExtractionStatus senv st jobId).1 = .ok resp →
       (resp.status = .completed ∨ resp.status = .failed) ∧
       (resp.status = .completed → resp.data.isSome = true) ∧
       (resp.status = .failed → resp.error.isSome = true)) := by
  refine ⟨?_, ?_, ?_, ?_⟩
  · cases e1 : env.uploadOriginal with
    | error e =>
      simp only [startExtraction, e1, startCatch]
      exact cacheOK_setCache hok (by simp [entryOK])
    | ok url =>
      cases e2 : env.engine with
      | error e =>
        simp only [startExtraction, e1, e2, startCatch]
        exact cacheOK_setCache hok (by simp [entryOK])
      | ok r =>
        cases e3 : env.uploadResult with
        | error e =>
          simp only [startExtraction, e1, e2, e3, startCatch]
          exact cacheOK_setCache hok (by simp [entryOK])
        | ok u =>
          simp only [startExtraction, e1, e2, e3]
          exact cacheOK_setCache hok (by simp [entryOK])
  · cases hcache : getA st.cache jobId with
    | some c => simp only [getExtractionStatus, hcache]; exact hok
    | none =>
      by_cases hdb : senv.dbThrows
      · cases hes : senv.engineStatus <;>
          · simp only [getExtractionStatus, hcache, hdb, engineFallback, hes,
                       if_true, if_false]
            exact hok
      · rw [Bool.not_eq_true] at hdb
        cases hj : getA st.db jobId with
        | none =>
          cases hes : senv.engineStatus <;>
            · simp [getExtractionStatus, hcache, hdb, hj, engineFallback, hes]
              intro k e h
              exact hok k e h
        | some j =>
          cases hp : (probeBlob st.blob
              ["output/" ++ jobId ++ "/" ++ encodeURIComponent j.fileName ++ ".json",
               "output/" ++ jobId ++ "/" ++ j.fileName ++ ".json"]).1 with
          | some data =>
            simp only [getExtractionStatus, hcache, hdb, hj, hp, Bool.false_eq_true,
                       if_false]
            exact cacheOK_setCache (fun k e h => hok k e h) (by simp [entryOK])
          | none =>
            cases hes : senv.engineStatus <;>
              · simp [getExtractionStatus, hcache, hdb, hj, hp, engineFallback, hes]
                intro k e h
                exact hok k e h
  · cases d? with
    | none => simp only [updateExtractionResult, updCatch]; exact hok
    | some d =>
      cases hl : uenv.lookupThrows with
      | some m => simp only [updateExtractionResult, hl, updCatch]; exact hok
      | none =>
        cases hj : getA st.db jobId with
        | some j =>
          cases hu : uenv.uploadThrows with
          | some m => simp only [updateExtractionResult, hl, hj, hu, updCatch]; exact hok
          | none =>
            cases hupd : uenv.updateThrows with
            | some m =>
              simp only [updateExtractionResult, hl, hj, hu, hupd, updCatch]
              exact fun k e h => hok k e h
            | none =>
              simp only [updateExtractionResult, hl, hj, hu, hupd]
              exact cacheOK_setCache (fun k e h => hok k e h) (by simp [entryOK])
        | none =>
          cases hc : getA st.cache jobId with
          | none => simp only [updateExtractionResult, hl, hj, hc, updCatch]; exact hok
          | some c =>
            cases hcr : uenv.createThrows with
            | some m =>
              simp only [updateExtractionResult, hl, hj, hc, hcr, updCatch]
              exact hok
            | none =>
              cases hl2 : uenv.lookup2Throws with
              | some m =>
                simp only [updateExtractionResult, hl, hj, hc, hcr, hl2, updCatch]
                exact fun k e h => hok k e h
              | none =>
                cases hu : uenv.uploadThrows with
                | some m =>
                  simp only [updateExtractionResult, hl, hj, hc, hcr, hl2, hu,
                             dbInsert, getA, updCatch]
                  exact fun k e h => hok k e h
                | none =>
                  cases hupd : uenv.updateThrows with
                  | some m =>
                    simp only [updateExtractionResult, hl, hj, hc, hcr, hl2, hu, hupd,
                               dbInsert, getA, updCatch]
                    exact fun k e h => hok k e h
                  | none =>
                    simp only [updateExtractionResult, hl, hj, hc, hcr, hl2, hu, hupd,
                               dbInsert, getA]
                    exact cacheOK_setCache (fun k e h => hok k e h) (by simp [entryOK])
  · intro c resp hcache hresp
    simp only [getExtractionStatus, hcache] at hresp
    cases hresp
    have hco := hok jobId c hcache
    simp only [entryOK] at hco
    exact ⟨hco.1, fun h => hco.2.1 h, fun h => (hco.2.2 h).1⟩

/-- C10, witness: the invariant holds of the empty cache and is preserved
by a concrete successful extraction. -/
theorem c10_cache_terminal_witness :
    cacheOK St.empty ∧
    cacheOK (startExtraction envAllOk St.empty "job_1" "a b.pdf").2 := by
  have hok : cacheOK St.empty := by
    intro k e h
    simp [St.empty, getA] at h
  exact ⟨hok,
    (c10_cache_terminal St.empty envAllOk senv404 uenvAllOk "job_1" "a b.pdf"
      (some sampleResult) hok).1⟩

end DastavejSetu
